import Mathlib

/-!
Verification of the join-clause synthesis engine in
`posthog/warehouse/models/join.py`.

The engine consists of:
* `join_function` — synthesizes a standard equality LEFT JOIN subtree,
* `join_function_for_experiments` — synthesizes an ASOF LEFT JOIN subtree
  for experiment-variant attribution,
* `soft_delete` — the specification's one lifecycle transition.

We embed the HogQL AST node shapes the engine reads and constructs
(`Field`, `Call`, `Alias`, `Constant`, `CompareOperation`, `And`, `Or`,
`ArithmeticOperation`, `SelectQuery`, `JoinExpr`, `JoinConstraint`), the
relevant data records (`DataWarehouseJoin`, `LazyJoinToAdd`), and the two
synthesizers as total functions into `Except`.  The HogQL parser
(`parse_expr`) and the AST-to-text renderer (`to_hogql`) are external
collaborators of the engine (out of scope per the design), so the
synthesizers take them as function-valued parameters (oracles); every
theorem statement quantifies over these oracles unless the property pins
down a concrete one.
-/

/-- Comparison operators (`ast.CompareOperationOp`).  The engine only ever
constructs `Eq` and `GtEq` and only inspects `Eq`, `GtEq`, `LtEq`; the
remaining members stand for all other comparison operators of the enum. -/
inductive CompareOperationOp where
  | Eq
  | NotEq
  | Gt
  | GtEq
  | Lt
  | LtEq
  deriving DecidableEq, Repr

/-- Constant values carried by `ast.Constant`. -/
inductive ConstVal where
  | str (s : String)
  | int (n : Int)
  | null
  deriving DecidableEq, Repr

/-- HogQL expression AST nodes, restricted to the shapes the engine
constructs or branches on.  `ast.And` and `ast.Or` both carry an `exprs`
list (relevant to the `hasattr(node.where, "exprs")` test); all other
nodes here do not. -/
inductive Expr where
  /-- `ast.Field(chain=...)` — a dotted field path. -/
  | field (chain : List String)
  /-- `ast.Constant(value=...)`. -/
  | constant (value : ConstVal)
  /-- `ast.Call(name=..., args=...)`. -/
  | call (name : String) (args : List Expr)
  /-- `ast.Alias(alias=..., expr=...)`. -/
  | alias (name : String) (expr : Expr)
  /-- `ast.CompareOperation(op=..., left=..., right=...)`. -/
  | compareOperation (op : CompareOperationOp) (left : Expr) (right : Expr)
  /-- `ast.ArithmeticOperation(op=..., left=..., right=...)`; the op is
  kept as its symbol string. -/
  | arithmeticOperation (op : String) (left : Expr) (right : Expr)
  /-- `ast.And(exprs=...)`. -/
  | and (exprs : List Expr)
  /-- `ast.Or(exprs=...)`. -/
  | or (exprs : List Expr)

/-- `ast.JoinConstraint(expr=..., constraint_type=...)`. -/
structure JoinConstraint where
  expr : Expr
  constraint_type : String

mutual
/-- The `table` of an `ast.JoinExpr`: either a table reference
(`ast.Field`) or a subquery (`ast.SelectQuery`). -/
inductive JoinTableRef where
  | field (chain : List String)
  | query (q : SelectQuery)

/-- `ast.SelectQuery`, restricted to the fields the engine reads or
writes: `select`, `select_from` and `where`. -/
inductive SelectQuery where
  | mk (select : List Expr) (select_from : Option JoinExpr)
       (whereClause : Option Expr)

/-- `ast.JoinExpr`, restricted to the fields the engine writes:
`table`, `join_type`, `alias`, `constraint` (all but `table` default to
`None` in the AST class). -/
inductive JoinExpr where
  | mk (table : JoinTableRef) (join_type : Option String)
       (aliasName : Option String) (constraint : Option JoinConstraint)
end

def SelectQuery.select : SelectQuery → List Expr
  | .mk s _ _ => s

def SelectQuery.select_from : SelectQuery → Option JoinExpr
  | .mk _ f _ => f

/-- The `where` field (named `whereClause` here since `where` is a Lean
keyword). -/
def SelectQuery.whereClause : SelectQuery → Option Expr
  | .mk _ _ w => w

def JoinExpr.table : JoinExpr → JoinTableRef
  | .mk t _ _ _ => t

def JoinExpr.join_type : JoinExpr → Option String
  | .mk _ j _ _ => j

def JoinExpr.aliasName : JoinExpr → Option String
  | .mk _ _ a _ => a

def JoinExpr.constraint : JoinExpr → Option JoinConstraint
  | .mk _ _ _ c => c

/-- Failures of the synthesizers.  The source raises a single exception
class `ResolutionError(message)`; a `Call` node with an empty argument
list additionally makes `left.args[0]` raise a Python `IndexError`, which
we keep as a distinct failure. -/
inductive JoinErr where
  | resolutionError (message : String)
  | indexError
  deriving DecidableEq, Repr

/-- Message of the `EmptyProjection` failure:
`f"No fields requested from {join_to_add.to_table}"`. -/
def emptyProjectionMessage (toTable : String) : String :=
  "No fields requested from " ++ toTable

/-- Message of the `UnsupportedKeyShape` failure (a fixed string). -/
def unsupportedKeyShapeMessage : String :=
  "Data Warehouse Join HogQL expression should be a Field or Call node"

/-- Message of the `UnsupportedJoiningTable` failure. -/
def unsupportedJoiningTableMessage : String :=
  "experiments_optimized is only supported for events table"

/-- First `MisconfiguredExperimentJoin` message (flag not enabled). -/
def experimentsNotEnabledMessage : String :=
  "experiments_optimized is not enabled for this join"

/-- Second `MisconfiguredExperimentJoin` message (timestamp key unset). -/
def timestampKeyNotSetMessage : String :=
  "experiments_timestamp_key is not set for this join"

/-- The spec's `MisconfiguredExperimentJoin` error kind covers the two
configuration-failure messages. -/
def isMisconfiguredExperimentJoin : JoinErr → Bool
  | .resolutionError m =>
      m == experimentsNotEnabledMessage || m == timestampKeyNotSetMessage
  | .indexError => false

/-- The `configuration` JSON map of a join, modelled by its two recognized
keys (`experiments_optimized : bool`, `experiments_timestamp_key : string`
per the data model); `none` stands for an absent key. -/
structure JoinConfiguration where
  experiments_optimized : Option Bool
  experiments_timestamp_key : Option String
  deriving DecidableEq, Repr

/-- The persistent join specification (`DataWarehouseJoin` model), with
its soft-delete markers.  Timestamps are abstract ticks (`Nat`). -/
structure DataWarehouseJoin where
  source_table_name : String
  source_table_key : String
  joining_table_name : String
  joining_table_key : String
  field_name : String
  configuration : JoinConfiguration
  deleted : Bool
  deleted_at : Option Nat
  deriving DecidableEq, Repr

/-- The per-compile join request (`LazyJoinToAdd`): the two table aliases
and the ordered output-alias → field-chain mapping. -/
structure LazyJoinToAdd where
  from_table : String
  to_table : String
  fields_accessed : List (String × List String)
  deriving DecidableEq, Repr

/-- `soft_delete`: sets `deleted = True` and `deleted_at = datetime.now()`
(the current time is the explicit `now` argument; persistence via `save()`
is external). -/
def soft_delete (j : DataWarehouseJoin) (now : Nat) : DataWarehouseJoin :=
  { j with deleted := true, deleted_at := some now }

/-- Python's `a or b` on an optional string: the override is used only
when present and non-empty (`None` and `""` are falsy). -/
def pyStrOr (override : Option String) (default_ : String) : String :=
  match override with
  | none => default_
  | some s => if s = "" then default_ else s

/-- The key-rewrite step of `_join_function` (performed identically on
the left and right key): a `Field` gets the table alias prepended to its
chain; a `Call` whose first argument is a `Field` gets the alias prepended
to that argument's chain only; a `Call` with no arguments hits
`left.args[0]` and raises `IndexError`; every other shape raises the
`UnsupportedKeyShape` `ResolutionError`. -/
def rewriteKey (tableAlias : String) (e : Expr) : Except JoinErr Expr :=
  match e with
  | .field chain => .ok (.field (tableAlias :: chain))
  | .call name args =>
      match args with
      | .field chain :: rest =>
          .ok (.call name (.field (tableAlias :: chain) :: rest))
      | [] => .error .indexError
      | _ :: _ => .error (.resolutionError unsupportedKeyShapeMessage)
  | _ => .error (.resolutionError unsupportedKeyShapeMessage)

/-- `_join_function` (the standard synthesizer), with the external parser
`parse_expr` passed as the oracle `parseExpr`.  Mirrors the source:
empty-projection check, then left-key parse+rewrite with `from_table`,
then right-key parse+rewrite with `to_table`, then the LEFT JOIN node. -/
def joinFunction (self : DataWarehouseJoin)
    (override_source_table_key override_joining_table_key : Option String)
    (parseExpr : String → Expr) (join_to_add : LazyJoinToAdd)
    (node : SelectQuery) : Except JoinErr JoinExpr :=
  let sourceKey := pyStrOr override_source_table_key self.source_table_key
  let joiningKey := pyStrOr override_joining_table_key self.joining_table_key
  if join_to_add.fields_accessed = [] then
    .error (.resolutionError (emptyProjectionMessage join_to_add.to_table))
  else do
    let left ← rewriteKey join_to_add.from_table (parseExpr sourceKey)
    let right ← rewriteKey join_to_add.to_table (parseExpr joiningKey)
    .ok (.mk
      (.query (.mk
        (join_to_add.fields_accessed.map fun p =>
          Expr.alias p.1 (Expr.field p.2))
        (some (.mk (.field [self.joining_table_name]) none none none))
        none))
      (some "LEFT JOIN")
      (some join_to_add.to_table)
      (some ⟨.compareOperation .Eq left right, "ON"⟩))

/-- Whether the first list is an initial segment of the second
(character-level). -/
def startsWithChars : List Char → List Char → Bool
  | [], _ => true
  | _ :: _, [] => false
  | a :: as, b :: bs => a == b && startsWithChars as bs

/-- Whether `needle` occurs contiguously inside the second list. -/
def charsContain (needle : List Char) : List Char → Bool
  | [] => needle.isEmpty
  | c :: rest => startsWithChars needle (c :: rest) || charsContain needle rest

/-- Python's substring test `needle in hay`. -/
def strContains (hay needle : String) : Bool :=
  charsContain needle.toList hay.toList

/-- Python's `hasattr(x, "exprs")` on a `where` expression: `ast.And` and
`ast.Or` carry an `exprs` list, the other embedded nodes do not. -/
def exprsAttr : Expr → Option (List Expr)
  | .and es => some es
  | .or es => some es
  | _ => none

/-- The base predicate of the synthesized subquery's filter:
`event = '$feature_flag_called'`. -/
def featureFlagCalledPredicate : Expr :=
  .compareOperation .Eq (.field ["event"])
    (.constant (.str "$feature_flag_called"))

/-- One iteration of the timestamp-bound scan of
`_join_function_for_experiments`: an element of the outer `where`'s
`exprs` list contributes a bound exactly when it is a `CompareOperation`
with op `GtEq` or `LtEq` whose left side is an `Alias` whose aliased
expression's HogQL rendering (oracle `toHogql`) contains the timestamp
key as a substring; the contributed bound keeps the op and right side and
compares against the event-stream `timestamp` column. -/
def boundFromConjunct (toHogql : Expr → String) (timestamp_key : String)
    (e : Expr) : Option Expr :=
  match e with
  | .compareOperation op l r =>
      if op = .GtEq ∨ op = .LtEq then
        match l with
        | .alias _ inner =>
            if strContains (toHogql inner) timestamp_key then
              some (.compareOperation op (.field ["timestamp"]) r)
            else none
        | _ => none
      else none
  | _ => none

/-- The timestamp bounds pulled from the enclosing query's `where` clause
(lines 131–141 of the source): nothing when the clause is absent or lacks
an `exprs` attribute, else the bounds of its elements in order. -/
def extractTimestampBounds (toHogql : Expr → String) (timestamp_key : String)
    (whereOpt : Option Expr) : List Expr :=
  match whereOpt with
  | none => []
  | some w =>
      match exprsAttr w with
      | none => []
      | some es => es.filterMap (boundFromConjunct toHogql timestamp_key)

/-- Python dict update `d[k] = v` on an insertion-ordered association
list: replaces the value in place when the key is present, appends
otherwise. -/
def dictInsert (l : List (String × List String)) (k : String)
    (v : List String) : List (String × List String) :=
  if l.any (fun p => p.1 == k) then
    l.map (fun p => if p.1 == k then (p.1, v) else p)
  else l ++ [(k, v)]

/-- The merged projection mapping of the temporal synthesizer:
`{**join_to_add.fields_accessed, "event": ["event"], "timestamp":
["timestamp"], "distinct_id": ["distinct_id"], "properties":
["properties"]}` with Python dict-literal semantics (later entries win,
insertion order of earlier keys preserved). -/
def mergeFixedFields (fields : List (String × List String)) :
    List (String × List String) :=
  dictInsert
    (dictInsert
      (dictInsert
        (dictInsert fields "event" ["event"])
        "timestamp" ["timestamp"])
      "distinct_id" ["distinct_id"])
    "properties" ["properties"]

/-- Splits a character list at every occurrence of `c` (the pieces do not
contain `c`); the empty list yields one empty piece. -/
def splitOnChar (c : Char) : List Char → List (List Char)
  | [] => [[]]
  | x :: xs =>
      let rest := splitOnChar c xs
      if x == c then [] :: rest
      else
        match rest with
        | [] => [[x]]
        | r :: rs => (x :: r) :: rs

/-- Python's `s.split(".")` (used by the source on `joining_table_key`):
every maximal dot-free piece, in order; `""` yields `[""]` and adjacent
dots yield empty pieces, as in Python. -/
def pySplitDot (s : String) : List String :=
  (splitOnChar '.' s.toList).map List.asString

/-- `_join_function_for_experiments` (the temporal synthesizer), with the
external renderer `to_hogql` passed as the oracle `toHogql`.  Mirrors the
source: the three precondition checks, the base marker predicate plus the
timestamp-bound scan, the projection of the merged field mapping from the
`events` table, and the three-conjunct ASOF LEFT JOIN constraint. -/
def joinFunctionForExperiments (self : DataWarehouseJoin)
    (toHogql : Expr → String) (join_to_add : LazyJoinToAdd)
    (node : SelectQuery) : Except JoinErr JoinExpr :=
  if self.joining_table_name ≠ "events" then
    .error (.resolutionError unsupportedJoiningTableMessage)
  else if self.configuration.experiments_optimized ≠ some true then
    .error (.resolutionError experimentsNotEnabledMessage)
  else
    match self.configuration.experiments_timestamp_key with
    | none => .error (.resolutionError timestampKeyNotSetMessage)
    | some timestamp_key =>
      if timestamp_key = "" then
        .error (.resolutionError timestampKeyNotSetMessage)
      else
        let whereExpr : List Expr :=
          featureFlagCalledPredicate ::
            extractTimestampBounds toHogql timestamp_key node.whereClause
        .ok (.mk
          (.query (.mk
            ((mergeFixedFields join_to_add.fields_accessed).map fun p =>
              Expr.alias p.1 (Expr.field ("events" :: p.2)))
            (some (.mk (.field ["events"]) none none none))
            (some (.and whereExpr))))
          (some "ASOF LEFT JOIN")
          (some join_to_add.to_table)
          (some ⟨.and
            [ .compareOperation .Eq
                (.field [join_to_add.to_table, "event"])
                (.constant (.str "$feature_flag_called")),
              .compareOperation .Eq
                (.field [join_to_add.from_table, self.source_table_key])
                (.field (join_to_add.to_table ::
                  pySplitDot self.joining_table_key)),
              .compareOperation .GtEq
                (.field [join_to_add.from_table, timestamp_key])
                (.field [join_to_add.to_table, "timestamp"]) ],
            "ON"⟩))

/-- The projected field list of a synthesized join's subquery (empty when
the join's table is not a subquery). -/
def selectList (j : JoinExpr) : List Expr :=
  match j.table with
  | .query q => q.select
  | .field _ => []

/-- The conjunct list of a synthesized join's subquery filter (empty when
absent, singleton when the filter is not a conjunction). -/
def subqueryWhereList (j : JoinExpr) : List Expr :=
  match j.table with
  | .query q =>
      match q.whereClause with
      | some (.and es) => es
      | some e => [e]
      | none => []
  | .field _ => []

/-- A bare field path. -/
def isBareField : Expr → Bool
  | .field _ => true
  | _ => false

/-- A function call with at least one argument whose first argument is a
bare field path. -/
def isCallWithFieldHead : Expr → Bool
  | .call _ (.field _ :: _) => true
  | _ => false

/-- A function call with no arguments. -/
def isEmptyCall : Expr → Bool
  | .call _ [] => true
  | _ => false

/-- The four output aliases the temporal synthesizer always projects. -/
def fixedFieldNames : List String :=
  ["event", "timestamp", "distinct_id", "properties"]

mutual
/-- Claim-side reading of "the expression references the key": the key
occurs as an identifier in one of the expression's field chains.  (This
follows the claims' wording; the source instead tests
`isinstance(expr.left, ast.Alias)` plus a substring match on the rendered
text.) -/
def exprReferencesKey (key : String) : Expr → Bool
  | .field chain => chain.contains key
  | .constant _ => false
  | .call _ args => exprsReferenceKey key args
  | .alias _ e => exprReferencesKey key e
  | .compareOperation _ l r =>
      exprReferencesKey key l || exprReferencesKey key r
  | .arithmeticOperation _ l r =>
      exprReferencesKey key l || exprReferencesKey key r
  | .and es => exprsReferenceKey key es
  | .or es => exprsReferenceKey key es

/-- `exprReferencesKey` over a list of expressions. -/
def exprsReferenceKey (key : String) : List Expr → Bool
  | [] => false
  | e :: es => exprReferencesKey key e || exprsReferenceKey key es
end

/-- A specification for an experiments join on the events table:
`persons.id = events.person_id`, optimized, timestamp key `created_at`. -/
def eventsSpec : DataWarehouseJoin :=
  ⟨"persons", "id", "events", "person_id", "experiment",
   ⟨some true, some "created_at"⟩, false, none⟩

/-- A request whose `fields_accessed` collides with the fixed column
`event`. -/
def overlapRequest : LazyJoinToAdd := ⟨"src", "dst", [("event", ["foo"])]⟩

/-- An enclosing query with no filter clause. -/
def emptyNode : SelectQuery := .mk [] none none

/-- A degenerate rendering oracle (never consulted in fixtures without an
`Alias` comparison in the filter). -/
def nullRenderer : Expr → String := fun _ => ""

/-- The node the temporal synthesizer returns for `eventsSpec` and
`overlapRequest` under `emptyNode`. -/
def overlapResult : JoinExpr :=
  .mk
    (.query (.mk
      [ .alias "event" (.field ["events", "event"]),
        .alias "timestamp" (.field ["events", "timestamp"]),
        .alias "distinct_id" (.field ["events", "distinct_id"]),
        .alias "properties" (.field ["events", "properties"]) ]
      (some (.mk (.field ["events"]) none none none))
      (some (.and [featureFlagCalledPredicate]))))
    (some "ASOF LEFT JOIN")
    (some "dst")
    (some ⟨.and
      [ .compareOperation .Eq (.field ["dst", "event"])
          (.constant (.str "$feature_flag_called")),
        .compareOperation .Eq (.field ["src", "id"])
          (.field ["dst", "person_id"]),
        .compareOperation .GtEq (.field ["src", "created_at"])
          (.field ["dst", "timestamp"]) ],
      "ON"⟩)

/-- A standard (non-experiments) join specification:
`persons.id = orders.person_id`. -/
def stdSpec : DataWarehouseJoin :=
  ⟨"persons", "id", "orders", "person_id", "orders_join",
   ⟨none, none⟩, false, none⟩

/-- A parser oracle that parses every key string as a bare field path. -/
def stdParse : String → Expr := fun s => .field [s]

/-- A request with an empty projection. -/
def emptyRequest : LazyJoinToAdd := ⟨"src", "dst", []⟩

/-- A request projecting one field. -/
def stdRequest : LazyJoinToAdd := ⟨"src", "dst", [("total", ["total"])]⟩

/-- A specification joining a non-events table with experiments
configuration present (exercising that `UnsupportedJoiningTable` wins
regardless of configuration). -/
def badTableSpec : DataWarehouseJoin :=
  ⟨"persons", "id", "orders", "person_id", "experiment",
   ⟨some true, some "created_at"⟩, false, none⟩

/-- An events-table specification with `experiments_optimized` unset. -/
def notEnabledSpec : DataWarehouseJoin :=
  ⟨"persons", "id", "events", "person_id", "experiment",
   ⟨none, some "created_at"⟩, false, none⟩

/-- The node the standard synthesizer returns for `stdSpec` and
`stdRequest` under the bare-field parser oracle. -/
def stdResult : JoinExpr :=
  .mk (.query (.mk [.alias "total" (.field ["total"])]
        (some (.mk (.field ["orders"]) none none none)) none))
    (some "LEFT JOIN") (some "dst")
    (some ⟨.compareOperation .Eq (.field ["src", "id"])
      (.field ["dst", "person_id"]), "ON"⟩)

/-- A parser oracle parsing the source key to a two-argument call whose
first argument is a bare field path. -/
def multiArgParse : String → Expr := fun s =>
  if s = "f(a, 1)" then .call "f" [.field ["a"], .constant (.int 1)]
  else .field [s]

/-- A specification whose source key is the two-argument call
`f(a, 1)`. -/
def multiArgSpec : DataWarehouseJoin :=
  ⟨"persons", "f(a, 1)", "orders", "person_id", "orders_join",
   ⟨none, none⟩, false, none⟩

/-- The node the standard synthesizer returns for `multiArgSpec`:
synthesis succeeds and rewrites only the first argument's chain. -/
def multiArgResult : JoinExpr :=
  .mk (.query (.mk [.alias "total" (.field ["total"])]
        (some (.mk (.field ["orders"]) none none none)) none))
    (some "LEFT JOIN") (some "dst")
    (some ⟨.compareOperation .Eq
      (.call "f" [.field ["src", "a"], .constant (.int 1)])
      (.field ["dst", "person_id"]), "ON"⟩)

/-- The binary arithmetic expression `b + 2`. -/
def arithExpr : Expr :=
  .arithmeticOperation "+" (.field ["b"]) (.constant (.int 2))

/-- A parser oracle parsing the source key to `arithExpr`. -/
def arithParse : String → Expr := fun s =>
  if s = "b + 2" then arithExpr else .field [s]

/-- A specification whose source key is the arithmetic expression. -/
def arithSpec : DataWarehouseJoin :=
  ⟨"persons", "b + 2", "orders", "person_id", "orders_join",
   ⟨none, none⟩, false, none⟩

/-- The `.ok` payload of `joinFunctionForExperiments` once the three
preconditions hold, as a function of the inputs and the (non-empty)
timestamp key. -/
def experimentsResultNode (self : DataWarehouseJoin)
    (toHogql : Expr → String) (join_to_add : LazyJoinToAdd)
    (node : SelectQuery) (timestamp_key : String) : JoinExpr :=
  .mk
    (.query (.mk
      ((mergeFixedFields join_to_add.fields_accessed).map fun p =>
        Expr.alias p.1 (Expr.field ("events" :: p.2)))
      (some (.mk (.field ["events"]) none none none))
      (some (.and (featureFlagCalledPredicate ::
        extractTimestampBounds toHogql timestamp_key node.whereClause)))))
    (some "ASOF LEFT JOIN")
    (some join_to_add.to_table)
    (some ⟨.and
      [ .compareOperation .Eq
          (.field [join_to_add.to_table, "event"])
          (.constant (.str "$feature_flag_called")),
        .compareOperation .Eq
          (.field [join_to_add.from_table, self.source_table_key])
          (.field (join_to_add.to_table ::
            pySplitDot self.joining_table_key)),
        .compareOperation .GtEq
          (.field [join_to_add.from_table, timestamp_key])
          (.field [join_to_add.to_table, "timestamp"]) ],
      "ON"⟩)

/-- An enclosing query whose filter has one top-level conjunct: a
greater-or-equal comparison whose left side is the bare field
`created_at` (no `Alias` wrapper). -/
def bareBoundNode : SelectQuery :=
  .mk [] none (some (.and
    [ .compareOperation .GtEq (.field ["created_at"])
        (.constant (.str "2024-01-01")) ]))

/-- The node the temporal synthesizer returns for `eventsSpec`,
`stdRequest` and `bareBoundNode`: no timestamp bound is extracted. -/
def bareBoundResult : JoinExpr :=
  .mk
    (.query (.mk
      [ .alias "total" (.field ["events", "total"]),
        .alias "event" (.field ["events", "event"]),
        .alias "timestamp" (.field ["events", "timestamp"]),
        .alias "distinct_id" (.field ["events", "distinct_id"]),
        .alias "properties" (.field ["events", "properties"]) ]
      (some (.mk (.field ["events"]) none none none))
      (some (.and [featureFlagCalledPredicate]))))
    (some "ASOF LEFT JOIN")
    (some "dst")
    (some ⟨.and
      [ .compareOperation .Eq (.field ["dst", "event"])
          (.constant (.str "$feature_flag_called")),
        .compareOperation .Eq (.field ["src", "id"])
          (.field ["dst", "person_id"]),
        .compareOperation .GtEq (.field ["src", "created_at"])
          (.field ["dst", "timestamp"]) ],
      "ON"⟩)

/-- An enclosing query whose filter carries two alias-wrapped timestamp
bounds on `created_at`. -/
def aliasBoundNode : SelectQuery :=
  .mk [] none (some (.and
    [ .compareOperation .GtEq
        (.alias "created_at" (.field ["created_at"]))
        (.constant (.str "2024-01-01")),
      .compareOperation .LtEq
        (.alias "created_at" (.field ["created_at"]))
        (.constant (.str "2024-06-30")) ]))

/-- A rendering oracle printing a field as its dotted chain. -/
def chainRenderer : Expr → String := fun e =>
  match e with
  | .field chain => String.intercalate "." chain
  | _ => ""

/-- Claim C9: `soft_delete` sets `deleted` to true and stamps `deleted_at`
with the current time; a second call leaves `deleted` true while the
deletion timestamp is refreshed to the new current time; no other field of
the specification is changed. -/
theorem c9_soft_delete (j : DataWarehouseJoin) (t1 t2 : Nat) :
    (soft_delete j t1).deleted = true ∧
    (soft_delete j t1).deleted_at = some t1 ∧
    (soft_delete (soft_delete j t1) t2).deleted = true ∧
    (soft_delete (soft_delete j t1) t2).deleted_at = some t2 ∧
    (soft_delete j t1).source_table_name = j.source_table_name ∧
    (soft_delete j t1).source_table_key = j.source_table_key ∧
    (soft_delete j t1).joining_table_name = j.joining_table_name ∧
    (soft_delete j t1).joining_table_key = j.joining_table_key ∧
    (soft_delete j t1).field_name = j.field_name ∧
    (soft_delete j t1).configuration = j.configuration := by
  simp [soft_delete]

/-- Claim C4: the key-rewrite step of the standard synthesizer (applied
with `from_table` on the source side and `to_table` on the joining side)
prepends the alias to a bare field path's chain, and for a call whose
first argument is a field path prepends the alias only to that argument's
chain, leaving the function name and the remaining arguments unchanged. -/
theorem c4_rewrite_prepends_alias (t : String) (chain : List String)
    (f : String) (rest : List Expr) :
    rewriteKey t (.field chain) = .ok (.field (t :: chain)) ∧
    rewriteKey t (.call f (.field chain :: rest)) =
      .ok (.call f (.field (t :: chain) :: rest)) :=
  ⟨rfl, rfl⟩

/-- Claim C8: both synthesizers are deterministic pure functions —
structurally identical inputs (specification, overrides, parser and
renderer oracles, request, enclosing query) yield structurally identical
outputs or identical errors.  Purity (no I/O, inputs unchanged) is
reflected by the embedding: both are total functions on immutable
values. -/
theorem c8_determinism (s1 s2 : DataWarehouseJoin)
    (a1 a2 b1 b2 : Option String) (p1 p2 : String → Expr)
    (r1 r2 : Expr → String) (j1 j2 : LazyJoinToAdd)
    (n1 n2 : SelectQuery) (hs : s1 = s2) (ha : a1 = a2) (hb : b1 = b2)
    (hp : p1 = p2) (hr : r1 = r2) (hj : j1 = j2) (hn : n1 = n2) :
    joinFunction s1 a1 b1 p1 j1 n1 = joinFunction s2 a2 b2 p2 j2 n2 ∧
    joinFunctionForExperiments s1 r1 j1 n1 =
      joinFunctionForExperiments s2 r2 j2 n2 := by
  subst hs ha hb hp hr hj hn
  exact ⟨rfl, rfl⟩

lemma dictInsert_key_val (l : List (String × List String)) (k : String)
    (v : List String) : ∀ p ∈ dictInsert l k v, p.1 = k → p.2 = v := by
  intro p hp hk
  unfold dictInsert at hp
  split at hp
  · obtain ⟨q, hq, hfq⟩ := List.mem_map.mp hp
    by_cases hqk : (q.1 == k) = true
    · simp only [hqk, if_pos] at hfq
      rw [← hfq]
    · simp only [hqk] at hfq
      simp only [Bool.false_eq_true, if_neg] at hfq
      subst hfq
      exact absurd hk (by simpa using hqk)
  · next hguard =>
      rcases List.mem_append.mp hp with h | h
      · exact absurd (List.any_eq_true.mpr ⟨p, h, by simpa using hk⟩) hguard
      · simp only [List.mem_singleton] at h
        rw [h]

lemma dictInsert_preserve (l : List (String × List String)) (k : String)
    (v : List String) (p : String × List String) (hne : p.1 ≠ k) :
    p ∈ dictInsert l k v ↔ p ∈ l := by
  unfold dictInsert
  split
  · constructor
    · intro hp
      obtain ⟨q, hq, hfq⟩ := List.mem_map.mp hp
      by_cases hqk : (q.1 == k) = true
      · simp only [hqk, if_pos] at hfq
        rw [← hfq] at hne
        exact absurd (by simpa using hqk) hne
      · simp only [hqk, Bool.false_eq_true, if_neg] at hfq
        rwa [← hfq]
    · intro hp
      refine List.mem_map.mpr ⟨p, hp, ?_⟩
      have : (p.1 == k) = false := by simpa using hne
      simp [this]
  · constructor
    · intro hp
      rcases List.mem_append.mp hp with h | h
      · exact h
      · simp only [List.mem_singleton] at h
        rw [h] at hne
        exact absurd rfl hne
    · exact fun hp => List.mem_append.mpr (Or.inl hp)

lemma dictInsert_self_mem (l : List (String × List String)) (k : String)
    (v : List String) : (k, v) ∈ dictInsert l k v := by
  unfold dictInsert
  split
  · next hguard =>
      obtain ⟨q, hq, hqk⟩ := List.any_eq_true.mp hguard
      refine List.mem_map.mpr ⟨q, hq, ?_⟩
      have : q.1 = k := by simpa using hqk
      simp [hqk, this]
  · exact List.mem_append.mpr (Or.inr (by simp))

lemma mergeFixedFields_fixed (fields : List (String × List String))
    (n : String) (hn : n ∈ fixedFieldNames) :
    (∀ v, (n, v) ∈ mergeFixedFields fields → v = [n]) ∧
    (n, [n]) ∈ mergeFixedFields fields := by
  simp only [fixedFieldNames, List.mem_cons, List.mem_singleton,
    List.not_mem_nil, or_false] at hn
  unfold mergeFixedFields
  rcases hn with rfl | rfl | rfl | rfl
  · constructor
    · intro v hv
      rw [dictInsert_preserve _ _ _ _ (by simp)] at hv
      rw [dictInsert_preserve _ _ _ _ (by simp)] at hv
      rw [dictInsert_preserve _ _ _ _ (by simp)] at hv
      exact dictInsert_key_val _ _ _ _ hv rfl
    · rw [dictInsert_preserve _ _ _ _ (by decide),
        dictInsert_preserve _ _ _ _ (by decide),
        dictInsert_preserve _ _ _ _ (by decide)]
      exact dictInsert_self_mem _ _ _
  · constructor
    · intro v hv
      rw [dictInsert_preserve _ _ _ _ (by simp)] at hv
      rw [dictInsert_preserve _ _ _ _ (by simp)] at hv
      exact dictInsert_key_val _ _ _ _ hv rfl
    · rw [dictInsert_preserve _ _ _ _ (by decide),
        dictInsert_preserve _ _ _ _ (by decide)]
      exact dictInsert_self_mem _ _ _
  · constructor
    · intro v hv
      rw [dictInsert_preserve _ _ _ _ (by simp)] at hv
      exact dictInsert_key_val _ _ _ _ hv rfl
    · rw [dictInsert_preserve _ _ _ _ (by decide)]
      exact dictInsert_self_mem _ _ _
  · exact ⟨fun v hv => dictInsert_key_val _ _ _ _ hv rfl,
      dictInsert_self_mem _ _ _⟩

lemma mergeFixedFields_preserve (fields : List (String × List String))
    (p : String × List String) (hp : p ∈ fields)
    (hfix : p.1 ∉ fixedFieldNames) : p ∈ mergeFixedFields fields := by
  simp only [fixedFieldNames, List.mem_cons, List.mem_singleton,
    List.not_mem_nil, or_false, not_or] at hfix
  obtain ⟨h1, h2, h3, h4⟩ := hfix
  unfold mergeFixedFields
  rw [dictInsert_preserve _ _ _ _ h4, dictInsert_preserve _ _ _ _ h3,
    dictInsert_preserve _ _ _ _ h2, dictInsert_preserve _ _ _ _ h1]
  exact hp

/-- Claim C10: the four always-included columns take precedence in the
temporal subquery's projection — an entry of `fieldsAccessed` whose alias
is `event`, `timestamp`, `distinct_id` or `properties` has its requested
chain discarded and the fixed events-table column of the same name
projected under that alias instead (the fixed entries are merged after
`fieldsAccessed` in the dict literal). -/
theorem c10_fixed_precedence (self : DataWarehouseJoin)
    (toHogql : Expr → String) (jta : LazyJoinToAdd) (node : SelectQuery)
    (j : JoinExpr) (n : String) (chain : List String)
    (hn : n ∈ fixedFieldNames)
    (hmem : (n, chain) ∈ jta.fields_accessed)
    (hok : joinFunctionForExperiments self toHogql jta node = .ok j) :
    Expr.alias n (.field ["events", n]) ∈ selectList j ∧
    (chain ≠ [n] →
      Expr.alias n (.field ("events" :: chain)) ∉ selectList j) := by
  unfold joinFunctionForExperiments at hok
  split at hok
  · exact absurd hok (by simp)
  · split at hok
    · exact absurd hok (by simp)
    · split at hok
      · exact absurd hok (by simp)
      · split at hok
        · exact absurd hok (by simp)
        · simp only [Except.ok.injEq] at hok
          subst hok
          constructor
          · exact List.mem_map.mpr
              ⟨(n, [n]), (mergeFixedFields_fixed _ _ hn).2, rfl⟩
          · intro hch hmem2
            simp only [selectList, JoinExpr.table] at hmem2
            obtain ⟨⟨p1, p2⟩, hp, hfp⟩ := List.mem_map.mp hmem2
            simp only [Expr.alias.injEq, Expr.field.injEq,
              List.cons.injEq, true_and] at hfp
            obtain ⟨rfl, rfl⟩ := hfp
            exact hch ((mergeFixedFields_fixed _ _ hn).1 _ hp)

theorem c10_witness :
    Expr.alias "event" (.field ["events", "event"]) ∈
      selectList overlapResult ∧
    (["foo"] ≠ ["event"] →
      Expr.alias "event" (.field ["events", "foo"]) ∉
        selectList overlapResult) :=
  c10_fixed_precedence eventsSpec nullRenderer overlapRequest emptyNode
    overlapResult "event" ["foo"] (by simp [fixedFieldNames])
    (by simp [overlapRequest]) rfl

/-- Claim C1 counterexample: with `fieldsAccessed = {"event": ["foo"]}`
all temporal preconditions hold and synthesis succeeds, but the entry
`("event", ["foo"])` of `fieldsAccessed` is not projected — the subquery
carries the fixed `events.event` column under that alias instead — so the
subquery does not project "every entry of fieldsAccessed plus the four
columns" as the claim states. -/
theorem c1_counterexample :
    joinFunctionForExperiments eventsSpec nullRenderer overlapRequest
      emptyNode = .ok overlapResult ∧
    ("event", ["foo"]) ∈ overlapRequest.fields_accessed ∧
    Expr.alias "event" (.field ["events", "foo"]) ∉
      selectList overlapResult := by
  refine ⟨rfl, by simp [overlapRequest], ?_⟩
  simp [selectList, overlapResult, JoinExpr.table, SelectQuery.select]

lemma errBind {α β : Type} (e : JoinErr) (f : α → Except JoinErr β) :
    (Except.error e : Except JoinErr α) >>= f = .error e := rfl

lemma okBind {α β : Type} (a : α) (f : α → Except JoinErr β) :
    (Except.ok a : Except JoinErr α) >>= f = f a := rfl

lemma rewriteKey_error_cases (t : String) (e : Expr) (err : JoinErr)
    (h : rewriteKey t e = .error err) :
    err = .indexError ∨ err = .resolutionError unsupportedKeyShapeMessage := by
  cases e with
  | field chain => simp [rewriteKey] at h
  | call name args =>
      rcases args with _ | ⟨a, rest⟩
      · simp only [rewriteKey, Except.error.injEq] at h
        exact Or.inl h.symm
      · cases a <;> simp only [rewriteKey, Except.error.injEq] at h <;>
          first
          | exact Or.inr h.symm
          | simp at h
  | constant v =>
      simp only [rewriteKey, Except.error.injEq] at h
      exact Or.inr h.symm
  | «alias» a inner =>
      simp only [rewriteKey, Except.error.injEq] at h
      exact Or.inr h.symm
  | compareOperation op l r =>
      simp only [rewriteKey, Except.error.injEq] at h
      exact Or.inr h.symm
  | arithmeticOperation op l r =>
      simp only [rewriteKey, Except.error.injEq] at h
      exact Or.inr h.symm
  | and es =>
      simp only [rewriteKey, Except.error.injEq] at h
      exact Or.inr h.symm
  | or es =>
      simp only [rewriteKey, Except.error.injEq] at h
      exact Or.inr h.symm

lemma emptyProjection_ne_keyShape (t : String) :
    emptyProjectionMessage t ≠ unsupportedKeyShapeMessage := by
  intro h
  have h1 : (emptyProjectionMessage t).data.head? = some 'N' := by
    obtain ⟨l⟩ := t
    rfl
  rw [h] at h1
  exact absurd h1 (by decide)

/-- Claim C6: with an empty `fieldsAccessed` the standard synthesizer
fails with the `EmptyProjection` error naming the target table, before
resolving either key expression (the statement holds for every parser
oracle and any key strings); with a non-empty `fieldsAccessed` the
`EmptyProjection` failure never occurs. -/
theorem c6_empty_projection (self : DataWarehouseJoin)
    (ov1 ov2 : Option String) (parseExpr : String → Expr)
    (jta : LazyJoinToAdd) (node : SelectQuery) :
    (jta.fields_accessed = [] →
      joinFunction self ov1 ov2 parseExpr jta node =
        .error (.resolutionError (emptyProjectionMessage jta.to_table))) ∧
    (jta.fields_accessed ≠ [] →
      ∀ t, joinFunction self ov1 ov2 parseExpr jta node ≠
        .error (.resolutionError (emptyProjectionMessage t))) := by
  constructor
  · intro h
    simp [joinFunction, h]
  · intro h t hcontra
    simp only [joinFunction] at hcontra
    rw [if_neg h] at hcontra
    cases hr1 : rewriteKey jta.from_table
        (parseExpr (pyStrOr ov1 self.source_table_key)) with
    | error e1 =>
        rw [hr1] at hcontra
        simp only [errBind, okBind] at hcontra
        rcases rewriteKey_error_cases _ _ _ hr1 with rfl | rfl
        · simp at hcontra
        · simp only [Except.error.injEq, JoinErr.resolutionError.injEq]
            at hcontra
          exact emptyProjection_ne_keyShape t hcontra.symm
    | ok l =>
        rw [hr1] at hcontra
        simp only [errBind, okBind] at hcontra
        cases hr2 : rewriteKey jta.to_table
            (parseExpr (pyStrOr ov2 self.joining_table_key)) with
        | error e2 =>
            rw [hr2] at hcontra
            simp only [errBind, okBind] at hcontra
            rcases rewriteKey_error_cases _ _ _ hr2 with rfl | rfl
            · simp at hcontra
            · simp only [Except.error.injEq, JoinErr.resolutionError.injEq]
                at hcontra
              exact emptyProjection_ne_keyShape t hcontra.symm
        | ok r =>
            rw [hr2] at hcontra
            simp only [okBind] at hcontra
            simp at hcontra

theorem c6_witness :
    (joinFunction stdSpec none none stdParse emptyRequest emptyNode =
      .error (.resolutionError
        (emptyProjectionMessage emptyRequest.to_table))) ∧
    (joinFunction stdSpec none none stdParse stdRequest emptyNode ≠
      .error (.resolutionError (emptyProjectionMessage "dst"))) :=
  ⟨(c6_empty_projection stdSpec none none stdParse emptyRequest
      emptyNode).1 rfl,
   (c6_empty_projection stdSpec none none stdParse stdRequest
      emptyNode).2 (by simp [stdRequest]) "dst"⟩

/-- Claim C3: the temporal synthesizer fails with
`UnsupportedJoiningTable` whenever the joining table is not `events`,
regardless of any other configuration; and, on the events table, with a
`MisconfiguredExperimentJoin` error whenever `experiments_optimized` is
not true or `experiments_timestamp_key` is unset or empty.  The `Except`
result type carries no partial node on failure. -/
theorem c3_preconditions (self : DataWarehouseJoin)
    (toHogql : Expr → String) (jta : LazyJoinToAdd) (node : SelectQuery) :
    (self.joining_table_name ≠ "events" →
      joinFunctionForExperiments self toHogql jta node =
        .error (.resolutionError unsupportedJoiningTableMessage)) ∧
    (self.joining_table_name = "events" →
      (self.configuration.experiments_optimized ≠ some true ∨
        self.configuration.experiments_timestamp_key = none ∨
        self.configuration.experiments_timestamp_key = some "") →
      ∃ err, joinFunctionForExperiments self toHogql jta node =
        .error err ∧ isMisconfiguredExperimentJoin err = true) := by
  constructor
  · intro h
    simp [joinFunctionForExperiments, h]
  · intro hj hbad
    by_cases hopt : self.configuration.experiments_optimized = some true
    · rcases hbad with hbad | hnone | hempty
      · exact absurd hopt hbad
      · refine ⟨.resolutionError timestampKeyNotSetMessage, ?_,
          by simp [isMisconfiguredExperimentJoin]⟩
        simp [joinFunctionForExperiments, hj, hopt, hnone]
      · refine ⟨.resolutionError timestampKeyNotSetMessage, ?_,
          by simp [isMisconfiguredExperimentJoin]⟩
        simp [joinFunctionForExperiments, hj, hopt, hempty]
    · refine ⟨.resolutionError experimentsNotEnabledMessage, ?_,
        by simp [isMisconfiguredExperimentJoin]⟩
      simp [joinFunctionForExperiments, hj, hopt]

theorem c3_witness :
    (joinFunctionForExperiments badTableSpec nullRenderer stdRequest
      emptyNode = .error (.resolutionError unsupportedJoiningTableMessage)) ∧
    (∃ err, joinFunctionForExperiments notEnabledSpec nullRenderer
      stdRequest emptyNode = .error err ∧
      isMisconfiguredExperimentJoin err = true) :=
  ⟨(c3_preconditions badTableSpec nullRenderer stdRequest emptyNode).1
      (by decide),
   (c3_preconditions notEnabledSpec nullRenderer stdRequest emptyNode).2
      rfl (Or.inl (by decide))⟩

/-- Claim C7: every node either synthesizer returns has join type
`LEFT JOIN` (standard) or `ASOF LEFT JOIN` (temporal); since the join
type is pinned to one of these two literals on every success, no call
ever produces a RIGHT, FULL or INNER join. -/
theorem c7_join_types :
    (∀ (self : DataWarehouseJoin) (ov1 ov2 : Option String)
        (parseExpr : String → Expr) (jta : LazyJoinToAdd)
        (node : SelectQuery) (j : JoinExpr),
      joinFunction self ov1 ov2 parseExpr jta node = .ok j →
      j.join_type = some "LEFT JOIN") ∧
    (∀ (self : DataWarehouseJoin) (toHogql : Expr → String)
        (jta : LazyJoinToAdd) (node : SelectQuery) (j : JoinExpr),
      joinFunctionForExperiments self toHogql jta node = .ok j →
      j.join_type = some "ASOF LEFT JOIN") := by
  constructor
  · intro self ov1 ov2 p jta node j h
    simp only [joinFunction] at h
    split at h
    · exact absurd h (by simp)
    · cases hr1 : rewriteKey jta.from_table
          (p (pyStrOr ov1 self.source_table_key)) with
      | error e =>
          rw [hr1] at h
          simp only [errBind] at h
          simp at h
      | ok l =>
          rw [hr1] at h
          simp only [errBind, okBind] at h
          cases hr2 : rewriteKey jta.to_table
              (p (pyStrOr ov2 self.joining_table_key)) with
          | error e =>
              rw [hr2] at h
              simp only [errBind] at h
              simp at h
          | ok r =>
              rw [hr2] at h
              simp only [okBind, Except.ok.injEq] at h
              rw [← h]
              rfl
  · intro self toH jta node j h
    unfold joinFunctionForExperiments at h
    split at h
    · exact absurd h (by simp)
    · split at h
      · exact absurd h (by simp)
      · split at h
        · exact absurd h (by simp)
        · split at h
          · exact absurd h (by simp)
          · simp only [Except.ok.injEq] at h
            rw [← h]
            rfl

theorem c7_witness :
    stdResult.join_type = some "LEFT JOIN" ∧
    overlapResult.join_type = some "ASOF LEFT JOIN" :=
  ⟨c7_join_types.1 stdSpec none none stdParse stdRequest emptyNode
      stdResult rfl,
   c7_join_types.2 eventsSpec nullRenderer overlapRequest emptyNode
      overlapResult rfl⟩

theorem c8_witness :
    joinFunction stdSpec none none stdParse stdRequest emptyNode =
      joinFunction stdSpec none none stdParse stdRequest emptyNode ∧
    joinFunctionForExperiments eventsSpec nullRenderer overlapRequest
        emptyNode =
      joinFunctionForExperiments eventsSpec nullRenderer overlapRequest
        emptyNode :=
  ⟨(c8_determinism stdSpec stdSpec none none none none stdParse stdParse
      nullRenderer nullRenderer stdRequest stdRequest emptyNode emptyNode
      rfl rfl rfl rfl rfl rfl rfl).1,
   (c8_determinism eventsSpec eventsSpec none none none none stdParse
      stdParse nullRenderer nullRenderer overlapRequest overlapRequest
      emptyNode emptyNode rfl rfl rfl rfl rfl rfl rfl).2⟩

/-- Claim C5 counterexample: `f(a, 1)` is neither a bare field path nor a
single-argument function call wrapping one (it has two arguments), yet
standard synthesis succeeds on it instead of failing with
`UnsupportedKeyShape` — the source accepts calls of any arity whose first
argument is a `Field`.  Moreover the `UnsupportedKeyShape` message is the
same fixed string for two different offending expressions, so it cannot
name the offending expression. -/
theorem c5_counterexample :
    joinFunction multiArgSpec none none multiArgParse stdRequest
      emptyNode = .ok multiArgResult ∧
    rewriteKey "src"
        (.arithmeticOperation "+" (.field ["a"]) (.constant (.int 1))) =
      .error (.resolutionError unsupportedKeyShapeMessage) ∧
    rewriteKey "src"
        (.compareOperation .Eq (.field ["a"]) (.field ["b"])) =
      .error (.resolutionError unsupportedKeyShapeMessage) :=
  ⟨rfl, rfl, rfl⟩

/-- Claim C5 as amended: every key expression that is neither a bare
field path nor a function call with at least one argument whose first
argument is a bare field path fails — a zero-argument call with an index
error (from evaluating `args[0]`), every other such shape with the
`UnsupportedKeyShape` resolution error whose message is a fixed string
that does not name the offending expression — and the standard
synthesizer propagates the failure, producing no join node. -/
theorem c5_amended (t : String) (e : Expr)
    (h1 : isBareField e = false) (h2 : isCallWithFieldHead e = false) :
    rewriteKey t e = .error (if isEmptyCall e then JoinErr.indexError
      else .resolutionError unsupportedKeyShapeMessage) ∧
    ∀ (self : DataWarehouseJoin) (ov1 ov2 : Option String)
      (parseExpr : String → Expr) (jta : LazyJoinToAdd)
      (node : SelectQuery),
      jta.fields_accessed ≠ [] →
      parseExpr (pyStrOr ov1 self.source_table_key) = e →
      jta.from_table = t →
      joinFunction self ov1 ov2 parseExpr jta node =
        .error (if isEmptyCall e then JoinErr.indexError
          else .resolutionError unsupportedKeyShapeMessage) := by
  have hmain : rewriteKey t e =
      .error (if isEmptyCall e then JoinErr.indexError
        else .resolutionError unsupportedKeyShapeMessage) := by
    cases e with
    | field c => simp [isBareField] at h1
    | call name args =>
        rcases args with _ | ⟨a, rest⟩
        · rfl
        · cases a with
          | field c => simp [isCallWithFieldHead] at h2
          | constant v => rfl
          | call n2 a2 => rfl
          | «alias» n2 e2 => rfl
          | compareOperation op l r => rfl
          | arithmeticOperation op l r => rfl
          | and es => rfl
          | or es => rfl
    | constant v => rfl
    | «alias» n2 e2 => rfl
    | compareOperation op l r => rfl
    | arithmeticOperation op l r => rfl
    | and es => rfl
    | or es => rfl
  refine ⟨hmain, ?_⟩
  intro self ov1 ov2 parseExpr jta node hne hparse hfrom
  simp only [joinFunction]
  rw [if_neg hne, hparse, hfrom, hmain]
  exact errBind _ _

theorem c5_witness :
    rewriteKey "src" arithExpr =
      .error (.resolutionError unsupportedKeyShapeMessage) ∧
    joinFunction arithSpec none none arithParse stdRequest emptyNode =
      .error (.resolutionError unsupportedKeyShapeMessage) :=
  ⟨(c5_amended "src" arithExpr rfl rfl).1,
   (c5_amended "src" arithExpr rfl rfl).2 arithSpec none none arithParse
     stdRequest emptyNode (by simp [stdRequest]) rfl rfl⟩

lemma joinFunctionForExperiments_ok (self : DataWarehouseJoin)
    (toHogql : Expr → String) (jta : LazyJoinToAdd) (node : SelectQuery)
    (tk : String) (hjoin : self.joining_table_name = "events")
    (hopt : self.configuration.experiments_optimized = some true)
    (htk : self.configuration.experiments_timestamp_key = some tk)
    (htk' : tk ≠ "") :
    joinFunctionForExperiments self toHogql jta node =
      .ok (experimentsResultNode self toHogql jta node tk) := by
  unfold joinFunctionForExperiments experimentsResultNode
  rw [hjoin, hopt, htk]
  simp [htk']

/-- Claim C1 as amended: under the temporal preconditions the synthesizer
returns an AsofJoin node with join type ASOF LEFT JOIN, aliased to the
request's `toTable`, whose subquery projects from the events table every
entry of `fieldsAccessed` whose alias is not one of the four fixed names
plus the four fixed columns (fixed columns override colliding aliases,
cf. C10), and whose ON constraint is the conjunction of exactly the three
comparisons of the claim. -/
theorem c1_amended (self : DataWarehouseJoin) (toHogql : Expr → String)
    (jta : LazyJoinToAdd) (node : SelectQuery) (tk : String)
    (hjoin : self.joining_table_name = "events")
    (hopt : self.configuration.experiments_optimized = some true)
    (htk : self.configuration.experiments_timestamp_key = some tk)
    (htk' : tk ≠ "") :
    ∃ j, joinFunctionForExperiments self toHogql jta node = .ok j ∧
      j.join_type = some "ASOF LEFT JOIN" ∧
      j.aliasName = some jta.to_table ∧
      (∀ p ∈ jta.fields_accessed, p.1 ∉ fixedFieldNames →
        Expr.alias p.1 (.field ("events" :: p.2)) ∈ selectList j) ∧
      (∀ n ∈ fixedFieldNames,
        Expr.alias n (.field ["events", n]) ∈ selectList j) ∧
      j.constraint = some ⟨.and
        [ .compareOperation .Eq (.field [jta.to_table, "event"])
            (.constant (.str "$feature_flag_called")),
          .compareOperation .Eq
            (.field [jta.from_table, self.source_table_key])
            (.field (jta.to_table :: pySplitDot self.joining_table_key)),
          .compareOperation .GtEq (.field [jta.from_table, tk])
            (.field [jta.to_table, "timestamp"]) ],
        "ON"⟩ := by
  refine ⟨experimentsResultNode self toHogql jta node tk,
    joinFunctionForExperiments_ok self toHogql jta node tk hjoin hopt htk
      htk', rfl, rfl, ?_, ?_, rfl⟩
  · intro p hp hfix
    exact List.mem_map.mpr ⟨p, mergeFixedFields_preserve _ p hp hfix, rfl⟩
  · intro n hn
    exact List.mem_map.mpr ⟨(n, [n]), (mergeFixedFields_fixed _ _ hn).2, rfl⟩

theorem c1_witness :
    ∃ j, joinFunctionForExperiments eventsSpec nullRenderer stdRequest
        emptyNode = .ok j ∧
      j.join_type = some "ASOF LEFT JOIN" ∧
      j.aliasName = some stdRequest.to_table ∧
      (∀ p ∈ stdRequest.fields_accessed, p.1 ∉ fixedFieldNames →
        Expr.alias p.1 (.field ("events" :: p.2)) ∈ selectList j) ∧
      (∀ n ∈ fixedFieldNames,
        Expr.alias n (.field ["events", n]) ∈ selectList j) ∧
      j.constraint = some ⟨.and
        [ .compareOperation .Eq (.field [stdRequest.to_table, "event"])
            (.constant (.str "$feature_flag_called")),
          .compareOperation .Eq
            (.field [stdRequest.from_table, eventsSpec.source_table_key])
            (.field (stdRequest.to_table ::
              pySplitDot eventsSpec.joining_table_key)),
          .compareOperation .GtEq
            (.field [stdRequest.from_table, "created_at"])
            (.field [stdRequest.to_table, "timestamp"]) ],
        "ON"⟩ :=
  c1_amended eventsSpec nullRenderer stdRequest emptyNode "created_at"
    rfl rfl rfl (by decide)

/-- Claim C2 counterexample: the enclosing filter's single top-level
conjunct is a `>=` comparison whose left side (the bare field
`created_at`) references the configured timestamp key, yet the
synthesized subquery's filter contains no corresponding `timestamp`
bound — the source only matches conjuncts whose left side is an
`ast.Alias` node, skipping a bare field reference — so the subquery
filter holds only the base marker predicate. -/
theorem c2_counterexample :
    bareBoundNode.whereClause = some (.and
      [ .compareOperation .GtEq (.field ["created_at"])
          (.constant (.str "2024-01-01")) ]) ∧
    exprReferencesKey "created_at" (.field ["created_at"]) = true ∧
    joinFunctionForExperiments eventsSpec nullRenderer stdRequest
      bareBoundNode = .ok bareBoundResult ∧
    subqueryWhereList bareBoundResult = [featureFlagCalledPredicate] ∧
    Expr.compareOperation .GtEq (.field ["timestamp"])
        (.constant (.str "2024-01-01")) ∉
      subqueryWhereList bareBoundResult := by
  refine ⟨rfl, rfl, rfl, rfl, ?_⟩
  simp [subqueryWhereList, bareBoundResult, JoinExpr.table,
    SelectQuery.whereClause, featureFlagCalledPredicate]

/-- Claim C2 as amended: under the temporal preconditions, synthesis
always succeeds and the subquery filter is the base marker predicate
followed by the extracted bounds; a top-level conjunct contributes its
bound exactly when it is a `>=`/`<=` comparison whose left side is an
`Alias` node whose aliased expression's rendering contains the timestamp
key as a substring (bare references to the key are ignored, cf. the
counterexample); when no conjunct matches, or the filter clause is
absent, the subquery filter holds only the base marker predicate. -/
theorem c2_amended (self : DataWarehouseJoin) (toHogql : Expr → String)
    (jta : LazyJoinToAdd) (node : SelectQuery) (tk : String)
    (hjoin : self.joining_table_name = "events")
    (hopt : self.configuration.experiments_optimized = some true)
    (htk : self.configuration.experiments_timestamp_key = some tk)
    (htk' : tk ≠ "") :
    ∃ j, joinFunctionForExperiments self toHogql jta node = .ok j ∧
      subqueryWhereList j = featureFlagCalledPredicate ::
        extractTimestampBounds toHogql tk node.whereClause ∧
      (∀ conjuncts, node.whereClause = some (.and conjuncts) →
        (∀ (op : CompareOperationOp) (a : String) (inner r : Expr),
          Expr.compareOperation op (.alias a inner) r ∈ conjuncts →
          (op = .GtEq ∨ op = .LtEq) →
          strContains (toHogql inner) tk = true →
          Expr.compareOperation op (.field ["timestamp"]) r ∈
            subqueryWhereList j) ∧
        ((∀ c ∈ conjuncts, boundFromConjunct toHogql tk c = none) →
          subqueryWhereList j = [featureFlagCalledPredicate])) ∧
      (node.whereClause = none →
        subqueryWhereList j = [featureFlagCalledPredicate]) := by
  refine ⟨experimentsResultNode self toHogql jta node tk,
    joinFunctionForExperiments_ok self toHogql jta node tk hjoin hopt htk
      htk', rfl, ?_, ?_⟩
  · intro conjuncts hw
    constructor
    · intro op a inner r hmem hop hsub
      have hbound : boundFromConjunct toHogql tk
          (.compareOperation op (.alias a inner) r) =
          some (.compareOperation op (.field ["timestamp"]) r) := by
        simp only [boundFromConjunct]
        rw [if_pos hop, if_pos hsub]
      have : Expr.compareOperation op (.field ["timestamp"]) r ∈
          extractTimestampBounds toHogql tk node.whereClause := by
        rw [hw]
        unfold extractTimestampBounds exprsAttr
        exact List.mem_filterMap.mpr
          ⟨.compareOperation op (.alias a inner) r, hmem, hbound⟩
      exact List.mem_cons_of_mem _ this
    · intro hall
      have : extractTimestampBounds toHogql tk node.whereClause = [] := by
        rw [hw]
        unfold extractTimestampBounds exprsAttr
        exact List.filterMap_eq_nil_iff.mpr hall
      show featureFlagCalledPredicate ::
        extractTimestampBounds toHogql tk node.whereClause =
          [featureFlagCalledPredicate]
      rw [this]
  · intro hw
    show featureFlagCalledPredicate ::
      extractTimestampBounds toHogql tk node.whereClause =
        [featureFlagCalledPredicate]
    rw [hw]
    rfl

theorem c2_witness :
    ∃ j, joinFunctionForExperiments eventsSpec chainRenderer stdRequest
        aliasBoundNode = .ok j ∧
      subqueryWhereList j = featureFlagCalledPredicate ::
        extractTimestampBounds chainRenderer "created_at"
          aliasBoundNode.whereClause ∧
      (∀ conjuncts, aliasBoundNode.whereClause = some (.and conjuncts) →
        (∀ (op : CompareOperationOp) (a : String) (inner r : Expr),
          Expr.compareOperation op (.alias a inner) r ∈ conjuncts →
          (op = .GtEq ∨ op = .LtEq) →
          strContains (chainRenderer inner) "created_at" = true →
          Expr.compareOperation op (.field ["timestamp"]) r ∈
            subqueryWhereList j) ∧
        ((∀ c ∈ conjuncts,
            boundFromConjunct chainRenderer "created_at" c = none) →
          subqueryWhereList j = [featureFlagCalledPredicate])) ∧
      (aliasBoundNode.whereClause = none →
        subqueryWhereList j = [featureFlagCalledPredicate]) :=
  c2_amended eventsSpec chainRenderer stdRequest aliasBoundNode
    "created_at" rfl rfl rfl (by decide)
